import Mathlib

/-!
Verification of the per-series in-memory write buffer bucket
(src/src/dbnode/storage/series/buffer.go, type dbBufferBucket).

Time instants are modelled as integer nanosecond counts; the Go zero
time is 0.  Values are modelled as integers, since the buffer compares
them only for equality.  The Encoder and Block collaborators are not
part of the source tree; they are modelled from the spec (section 6),
with an explicit fault set so that encode errors and stream-open
errors can be exercised.  Side effects of the Go code (in-place
mutation of the bucket, Close calls on encoders and blocks) become
explicit outputs: each operation returns the final bucket state
together with the list of encoders and blocks it closed.
-/

/-- A datapoint: nanosecond timestamp and value. -/
structure Datapoint where
  timestamp : Int
  value : Int
  deriving Repr, DecidableEq

/-- An entry as recorded by an encoder: datapoint plus unit and the
opaque byte string passed along with it. -/
structure Entry where
  timestamp : Int
  value : Int
  unit : Nat
  ann : List Nat
  deriving Repr, DecidableEq

/-- The Go time.Truncate on nanosecond counts: round down to a
multiple of d (for d greater than 0; Truncate with d at most 0
returns the time unchanged). -/
def timeTruncate (t d : Int) : Int :=
  if 0 < d then t - t.emod d else t

/-- Modelled from the spec: section 6 Encoder interface (the encoding
package is not under src/).  The encoder records the entries appended
to it; `failSet` is the fault model deciding which datapoints the
codec refuses; `closed` records a Close call. -/
structure Encoder where
  start : Int
  data : List Entry
  failSet : List Datapoint
  closed : Bool
  deriving Repr, DecidableEq

/-- Modelled from the spec: Encoder.reset(start, allocSize). -/
def Encoder.reset (e : Encoder) (start : Int) (_allocSize : Nat) : Encoder :=
  { e with start := start, data := [], closed := false }

/-- Modelled from the spec: Encoder.encode; fails exactly on the
datapoints of the fault set. -/
def Encoder.encode (e : Encoder) (dp : Datapoint) (unit : Nat) (ann : List Nat) :
    Except String Encoder :=
  if e.failSet.contains dp then Except.error "encode error"
  else Except.ok { e with data := e.data ++ [⟨dp.timestamp, dp.value, unit, ann⟩] }

/-- Modelled from the spec: Encoder.lastEncoded; errs when nothing was
encoded. -/
def Encoder.lastEncoded (e : Encoder) : Except String Datapoint :=
  match e.data.getLast? with
  | some en => Except.ok ⟨en.timestamp, en.value⟩
  | none => Except.error "no datapoint encoded"

/-- Modelled from the spec: Encoder.numEncoded. -/
def Encoder.numEncoded (e : Encoder) : Nat := e.data.length

/-- Modelled from the spec: Encoder.len (byte length; zero exactly
when nothing was encoded). -/
def Encoder.len (e : Encoder) : Nat := e.data.length

/-- Modelled from the spec: Encoder.stream, none when empty. -/
def Encoder.stream (e : Encoder) : Option (List Entry) :=
  if e.data.isEmpty then none else some e.data

/-- Modelled from the spec: Encoder.discard detaches and returns the
underlying segment. -/
def Encoder.discard (e : Encoder) : List Entry := e.data

/-- Modelled from the spec: Encoder.close. -/
def Encoder.close (e : Encoder) : Encoder := { e with closed := true }

/-- Modelled from the spec: section 6 Block interface (the block
package is not under src/).  `streamFails` is the fault model for
stream-open errors; `closed` records a Close call. -/
structure DBBlock where
  start : Int
  blockSize : Int
  seg : List Entry
  retrieved : Bool
  streamFails : Bool
  closed : Bool
  deriving Repr, DecidableEq

/-- Modelled from the spec: Block.len (byte length; zero exactly when
the segment is empty). -/
def DBBlock.len (bl : DBBlock) : Nat := bl.seg.length

/-- An xio.BlockReader: an optional segment reader plus the window it
covers. -/
structure BlockReader where
  segmentReader : Option (List Entry)
  start : Int
  blockSize : Int
  deriving Repr, DecidableEq

/-- BlockReader.IsNotEmpty. -/
def BlockReader.isNotEmpty (r : BlockReader) : Bool :=
  match r.segmentReader with
  | some s => !s.isEmpty
  | none => false

/-- Modelled from the spec: Block.stream(ctx); the reader carries a
nil segment reader when the block holds no data. -/
def DBBlock.stream (bl : DBBlock) : Except String BlockReader :=
  if bl.streamFails then Except.error "stream open error"
  else Except.ok
    { segmentReader := if bl.seg.isEmpty then none else some bl.seg
      start := bl.start
      blockSize := bl.blockSize }

/-- Modelled from the spec: Block.reset(start, blockSize, segment). -/
def DBBlock.resetBlock (bl : DBBlock) (start blockSize : Int) (seg : List Entry) : DBBlock :=
  { bl with start := start, blockSize := blockSize, seg := seg, closed := false }

/-- Modelled from the spec: Block.close. -/
def DBBlock.close (bl : DBBlock) : DBBlock := { bl with closed := true }

/-- Modelled from the spec: DatabaseBlockPool.Get returns a zeroed
block. -/
def DBBlock.poolGet : DBBlock :=
  { start := 0, blockSize := 0, seg := [], retrieved := false
    streamFails := false, closed := false }

/-- The options handed to the bucket: block size and alloc size from
the retention and database block options, plus the fault model of the
pooled collaborators (which datapoints pooled encoders refuse, and
whether the pooled multi-reader iterator reports an error). -/
structure Options where
  blockSize : Int
  allocSize : Nat
  poolFailSet : List Datapoint
  iterFails : Bool
  flushAfterNoMetricPeriod : Int
  maxWritesBeforeFlush : Nat
  deriving Repr, DecidableEq

/-- Modelled from the spec: EncoderPool.Get returns a zeroed encoder
(whose codec fault set is fixed by the pool). -/
def Options.encoderPoolGet (o : Options) : Encoder :=
  { start := 0, data := [], failSet := o.poolFailSet, closed := false }

/-- inOrderEncoder from buffer.go. -/
structure InOrderEncoder where
  encoder : Encoder
  lastWriteAt : Int
  deriving Repr, DecidableEq

/-- dbBufferBucket from buffer.go. -/
structure DbBufferBucket where
  opts : Options
  start : Int
  encoders : List InOrderEncoder
  bootstrapped : List DBBlock
  lastReadUnixNanos : Int
  lastWriteUnixNanos : Int
  undrainedWrites : Nat
  drained : Bool
  deriving Repr, DecidableEq

/-- The zero value of dbBufferBucket, as produced by the bucket pool. -/
def dbBufferBucketZero : DbBufferBucket :=
  { opts := { blockSize := 0, allocSize := 0, poolFailSet := [], iterFails := false
              flushAfterNoMetricPeriod := 0, maxWritesBeforeFlush := 0 }
    start := 0, encoders := [], bootstrapped := []
    lastReadUnixNanos := 0, lastWriteUnixNanos := 0
    undrainedWrites := 0, drained := false }

/-- resetEncoders: close every held encoder and truncate the list;
returns the closed encoders. -/
def DbBufferBucket.resetEncoders (b : DbBufferBucket) : DbBufferBucket × List Encoder :=
  ({ b with encoders := [] }, b.encoders.map (fun e => e.encoder.close))

/-- resetBootstrapped: close every bootstrapped block and clear the
list; returns the closed blocks. -/
def DbBufferBucket.resetBootstrapped (b : DbBufferBucket) : DbBufferBucket × List DBBlock :=
  ({ b with bootstrapped := [] }, b.bootstrapped.map (fun bl => bl.close))

/-- finalize: resetEncoders then resetBootstrapped. -/
def DbBufferBucket.finalize (b : DbBufferBucket) :
    DbBufferBucket × List Encoder × List DBBlock :=
  let p1 := b.resetEncoders
  let p2 := p1.1.resetBootstrapped
  (p2.1, p1.2, p2.2)

/-- resetTo(start, opts): finalize, then install one fresh pooled
encoder reset to start, clear bootstrapped, zero the counters, clear
drained. -/
def DbBufferBucket.resetTo (b : DbBufferBucket) (start : Int) (opts : Options) :
    DbBufferBucket × List Encoder × List DBBlock :=
  let p := b.finalize
  let encoder := (opts.encoderPoolGet).reset start opts.allocSize
  ({ p.1 with
      opts := opts
      start := start
      encoders := p.1.encoders ++ [{ encoder := encoder, lastWriteAt := 0 }]
      bootstrapped := []
      lastReadUnixNanos := 0
      lastWriteUnixNanos := 0
      drained := false
      undrainedWrites := 0 }, p.2.1, p.2.2)

/-- empty: every bootstrapped block has length 0 and every encoder has
encoded 0 points. -/
def DbBufferBucket.empty (b : DbBufferBucket) : Bool :=
  b.bootstrapped.all (fun bl => bl.len == 0) &&
  b.encoders.all (fun e => e.encoder.numEncoded == 0)

/-- canRead. -/
def DbBufferBucket.canRead (b : DbBufferBucket) : Bool :=
  !b.drained && !b.empty

/-- lastWrite. -/
def DbBufferBucket.lastWrite (b : DbBufferBucket) : Int := b.lastWriteUnixNanos

/-- numWrites. -/
def DbBufferBucket.numWrites (b : DbBufferBucket) : Nat := b.undrainedWrites

/-- isStale. -/
def DbBufferBucket.isStale (b : DbBufferBucket) (now : Int) : Bool :=
  b.opts.flushAfterNoMetricPeriod < now - b.lastWrite

/-- isFull. -/
def DbBufferBucket.isFull (b : DbBufferBucket) : Bool :=
  b.opts.maxWritesBeforeFlush ≤ b.numWrites

/-- bootstrap(block): append the block to the bootstrapped list. -/
def DbBufferBucket.bootstrap (b : DbBufferBucket) (bl : DBBlock) : DbBufferBucket :=
  { b with bootstrapped := b.bootstrapped ++ [bl] }

/-- The outcome of the encoder scan at the head of write. -/
inductive ScanResult where
  | scanErr (msg : String)
  | noop
  | found (idx : Nat)
  | exhausted
  deriving Repr, DecidableEq

/-- The scan loop of write: for each encoder, an equal lastWriteAt
either no-ops (equal last value), errs (lastEncoded failed) or is
skipped; the first encoder whose tail the timestamp is strictly after
is selected. -/
def scanEncoders : List InOrderEncoder → Int → Int → Nat → ScanResult
  | [], _, _, _ => ScanResult.exhausted
  | e :: rest, timestamp, value, i =>
    if timestamp = e.lastWriteAt then
      match e.encoder.lastEncoded with
      | Except.error msg => ScanResult.scanErr msg
      | Except.ok last =>
        if last.value = value then ScanResult.noop
        else scanEncoders rest timestamp value (i + 1)
    else if e.lastWriteAt < timestamp then ScanResult.found i
    else scanEncoders rest timestamp value (i + 1)

/-- writeToEncoderIndex: encode the datapoint on the encoder at idx
and bump its lastWriteAt. -/
def DbBufferBucket.writeToEncoderIndex (b : DbBufferBucket) (idx : Nat)
    (dp : Datapoint) (unit : Nat) (ann : List Nat) : Except String DbBufferBucket :=
  match b.encoders.get? idx with
  | none => Except.error "index out of range"
  | some e =>
    match e.encoder.encode dp unit ann with
    | Except.error msg => Except.error msg
    | Except.ok enc1 =>
      Except.ok { b with encoders := b.encoders.set idx { encoder := enc1, lastWriteAt := dp.timestamp } }

/-- The result of a write call: the final bucket state, the encoders
closed during the call, and the returned error if any. -/
structure WriteOutcome where
  bucket : DbBufferBucket
  closedEncoders : List Encoder
  err : Option String
  deriving Repr, DecidableEq

/-- write(now, timestamp, value, unit, annotation bytes), translated
from buffer.go lines 121 to 200.  The branch writing to an existing
encoder returns directly, without touching lastWriteUnixNanos,
undrainedWrites or drained, exactly as the source does. -/
def DbBufferBucket.write (b : DbBufferBucket) (now timestamp value : Int)
    (unit : Nat) (ann : List Nat) : WriteOutcome :=
  let datapoint : Datapoint := ⟨timestamp, value⟩
  match scanEncoders b.encoders timestamp value 0 with
  | ScanResult.scanErr msg => ⟨b, [], some msg⟩
  | ScanResult.noop => ⟨b, [], none⟩
  | ScanResult.found idx =>
    match b.writeToEncoderIndex idx datapoint unit ann with
    | Except.error msg => ⟨b, [], some msg⟩
    | Except.ok b1 => ⟨b1, [], none⟩
  | ScanResult.exhausted =>
    let encoder := (b.opts.encoderPoolGet).reset
      (timeTruncate timestamp b.opts.blockSize) b.opts.allocSize
    let withNew : DbBufferBucket :=
      { b with encoders := b.encoders ++ [{ encoder := encoder, lastWriteAt := timestamp }] }
    let idx := withNew.encoders.length - 1
    match withNew.writeToEncoderIndex idx datapoint unit ann with
    | Except.error msg =>
      ⟨{ withNew with encoders := withNew.encoders.take idx }, [encoder.close], some msg⟩
    | Except.ok b1 =>
      ⟨{ b1 with
          lastWriteUnixNanos := now
          undrainedWrites := b1.undrainedWrites + 1
          drained := false }, [], none⟩

/-- streams(ctx): bootstrapped readers first (skipping length-0
blocks, failed stream opens and empty streams), then one reader per
encoder holding a stream, wrapped with the bucket window. -/
def DbBufferBucket.streams (b : DbBufferBucket) : List BlockReader :=
  (b.bootstrapped.filterMap (fun bl =>
    if bl.len = 0 then none
    else match bl.stream with
      | Except.ok s => if s.isNotEmpty then some s else none
      | Except.error _ => none)) ++
  (b.encoders.filterMap (fun e =>
    match e.encoder.stream with
    | some s => some { segmentReader := some s, start := b.start, blockSize := b.opts.blockSize }
    | none => none))

/-- streamsLen: sum of bootstrapped block lengths and encoder
lengths. -/
def DbBufferBucket.streamsLen (b : DbBufferBucket) : Nat :=
  (b.bootstrapped.map (fun bl => bl.len)).sum + (b.encoders.map (fun e => e.encoder.len)).sum

/-- hasJustSingleEncoder. -/
def DbBufferBucket.hasJustSingleEncoder (b : DbBufferBucket) : Bool :=
  b.encoders.length == 1 && b.bootstrapped.length == 0

/-- hasJustSingleBootstrappedBlock: encoders empty, or a single empty
encoder, and exactly one bootstrapped block. -/
def DbBufferBucket.hasJustSingleBootstrappedBlock (b : DbBufferBucket) : Bool :=
  (match b.encoders with
   | [] => true
   | [e] => e.encoder.len == 0
   | _ => false) && b.bootstrapped.length == 1

/-- needsMerge. -/
def DbBufferBucket.needsMerge (b : DbBufferBucket) : Bool :=
  b.canRead && !(b.hasJustSingleEncoder || b.hasJustSingleBootstrappedBlock)

/-- The bootstrapped streams fed into the merge iterator, in rank
order: a block contributes when its stream opens and carries a
segment reader. -/
def bootStreamsOf (b : DbBufferBucket) : List (List Entry) :=
  b.bootstrapped.filterMap (fun bl =>
    match bl.stream with
    | Except.ok r => r.segmentReader
    | Except.error _ => none)

/-- The encoder streams fed into the merge iterator, in push order. -/
def encStreamsOf (b : DbBufferBucket) : List (List Entry) :=
  b.encoders.filterMap (fun e => e.encoder.stream)

/-- Insert a timestamp into an ascending list. -/
def insertTs (t : Int) : List Int → List Int
  | [] => [t]
  | x :: xs => if t ≤ x then t :: x :: xs else x :: insertTs t xs

/-- Insertion sort for timestamps. -/
def sortTs (l : List Int) : List Int := l.foldr insertTs []

/-- Modelled from the spec: section 4.2 multi-reader iterator (the
encoding package is not under src/).  The drained output is
non-decreasing in timestamp, and on equal timestamps the reader with
the higher index wins. -/
def multiReaderMerge (readers : List (List Entry)) : List Entry :=
  let ts := sortTs ((readers.map (fun r => r.map (fun en => en.timestamp))).flatten.dedup)
  ts.filterMap (fun t =>
    ((readers.map (fun r => r.filter (fun en => en.timestamp = t))).flatten).getLast?)

/-- The drain loop of merge: encode each merged entry into the fresh
encoder, tracking the last written timestamp; stops at the first
encode error. -/
def drainLoop (encoder : Encoder) (lastWriteAt : Int) :
    List Entry → Except String (Encoder × Int)
  | [] => Except.ok (encoder, lastWriteAt)
  | en :: rest =>
    match encoder.encode ⟨en.timestamp, en.value⟩ en.unit en.ann with
    | Except.error msg => Except.error msg
    | Except.ok enc1 => drainLoop enc1 en.timestamp rest

/-- The result of a merge call: final bucket state, the merges count,
the encoders and blocks closed during the call, and the returned
error if any. -/
structure MergeOutcome where
  bucket : DbBufferBucket
  merges : Nat
  closedEncoders : List Encoder
  closedBlocks : List DBBlock
  err : Option String
  deriving Repr, DecidableEq

/-- merge(), translated from buffer.go lines 322 to 406: no-op unless
needsMerge; otherwise drain every bootstrapped and encoder stream
through the iterator into a fresh pooled encoder, and on success close
the old encoders and blocks and install the fresh encoder as the sole
one. -/
def DbBufferBucket.merge (b : DbBufferBucket) : MergeOutcome :=
  if !b.needsMerge then
    ⟨b, 0, [], [], none⟩
  else
    let encoder := (b.opts.encoderPoolGet).reset b.start b.opts.allocSize
    let readers := bootStreamsOf b ++ encStreamsOf b
    if b.opts.iterFails then ⟨b, 0, [], [], some "iterator error"⟩
    else
      match drainLoop encoder 0 (multiReaderMerge readers) with
      | Except.error msg => ⟨b, 0, [], [], some msg⟩
      | Except.ok (enc1, lastWriteAt) =>
        let p1 := b.resetEncoders
        let p2 := p1.1.resetBootstrapped
        ⟨{ p2.1 with
            encoders := p2.1.encoders ++ [{ encoder := enc1, lastWriteAt := lastWriteAt }] },
          readers.length, p1.2, p2.2, none⟩

/-- The result of a discardMerged call: final bucket state, the
returned block if any, the merges count, the encoders and blocks
closed during the call, and the returned error if any. -/
structure DiscardMergedOutcome where
  bucket : DbBufferBucket
  block : Option DBBlock
  merges : Nat
  closedEncoders : List Encoder
  closedBlocks : List DBBlock
  err : Option String
  deriving Repr, DecidableEq

/-- discardMerged(), translated from buffer.go lines 414 to 461.  The
Go code indexes b.encoders[0] after a merge; the empty case there
would panic and is modelled as an error. -/
def DbBufferBucket.discardMerged (b : DbBufferBucket) : DiscardMergedOutcome :=
  if b.hasJustSingleEncoder then
    match b.encoders with
    | encRec :: _ =>
      let newBlock := DBBlock.poolGet.resetBlock b.start b.opts.blockSize encRec.encoder.discard
      let b1 := { b with encoders := [] }
      let p := b1.resetBootstrapped
      ⟨p.1, some newBlock, 0, [], p.2, none⟩
    | [] => ⟨b, none, 0, [], [], some "index out of range"⟩
  else if b.hasJustSingleBootstrappedBlock then
    match b.bootstrapped with
    | existingBlock :: _ =>
      let p := b.resetEncoders
      ⟨{ p.1 with bootstrapped := [] }, some existingBlock, 0, p.2, [], none⟩
    | [] => ⟨b, none, 0, [], [], some "index out of range"⟩
  else
    let m := b.merge
    match m.err with
    | some msg =>
      let p1 := m.bucket.resetEncoders
      let p2 := p1.1.resetBootstrapped
      ⟨p2.1, none, 0, m.closedEncoders ++ p1.2, m.closedBlocks ++ p2.2, some msg⟩
    | none =>
      match m.bucket.encoders with
      | mergedRec :: _ =>
        let newBlock := DBBlock.poolGet.resetBlock m.bucket.start m.bucket.opts.blockSize
          mergedRec.encoder.discard
        let b1 := { m.bucket with encoders := [] }
        let p := b1.resetBootstrapped
        ⟨p.1, some newBlock, m.merges, m.closedEncoders, m.closedBlocks ++ p.2, none⟩
      | [] => ⟨m.bucket, none, 0, m.closedEncoders, m.closedBlocks, some "index out of range"⟩

/-! ### Fixtures used by concrete evaluations -/

/-- A plain options value: 2h block size in seconds-as-units is
irrelevant here; only equality and ordering of times matter. -/
def optsDefault : Options :=
  { blockSize := 7200, allocSize := 0, poolFailSet := [], iterFails := false
    flushAfterNoMetricPeriod := 600, maxWritesBeforeFlush := 100 }

/-- A fresh bucket at window start 0, as produced by resetTo on a
pooled zero bucket. -/
def fresh0 : DbBufferBucket := (dbBufferBucketZero.resetTo 0 optsDefault).1

/-- The bucket obtained by one in-order write on a fresh bucket; its
single encoder has tail timestamp 5. -/
def c4b1 : DbBufferBucket := (fresh0.write 10 5 1 0 []).bucket

/-- A bucket with two non-empty encoders, as produced by an in-order
write followed by an out-of-order write. -/
def c2m : DbBufferBucket := (c4b1.write 11 3 2 0 []).bucket

/-- A bucket whose pooled encoders refuse the datapoint (3, 9), with
one encoder whose tail is 5. -/
def c7b : DbBufferBucket :=
  { opts := { blockSize := 7200, allocSize := 0, poolFailSet := [⟨3, 9⟩], iterFails := false
              flushAfterNoMetricPeriod := 600, maxWritesBeforeFlush := 100 }
    start := 0
    encoders := [{ encoder := { start := 0, data := [⟨5, 1, 0, []⟩], failSet := [], closed := false }
                   lastWriteAt := 5 }]
    bootstrapped := [], lastReadUnixNanos := 0, lastWriteUnixNanos := 0
    undrainedWrites := 0, drained := false }

/-- A bucket holding an encoder whose tail (10) equals a later write
timestamp with matching value 7, but preceded by an encoder with an
earlier tail (5): the scan selects the earlier encoder first. -/
def c5cex : DbBufferBucket :=
  { opts := optsDefault, start := 0
    encoders :=
      [{ encoder := { start := 0, data := [⟨5, 1, 0, []⟩], failSet := [], closed := false }
         lastWriteAt := 5 },
       { encoder := { start := 0, data := [⟨10, 7, 0, []⟩], failSet := [], closed := false }
         lastWriteAt := 10 }]
    bootstrapped := [], lastReadUnixNanos := 0, lastWriteUnixNanos := 0
    undrainedWrites := 0, drained := false }

/-- A single-encoder bucket whose tail 10 carries last value 7. -/
def c5w : DbBufferBucket :=
  { opts := optsDefault, start := 0
    encoders :=
      [{ encoder := { start := 0, data := [⟨10, 7, 0, []⟩], failSet := [], closed := false }
         lastWriteAt := 10 }]
    bootstrapped := [], lastReadUnixNanos := 0, lastWriteUnixNanos := 0
    undrainedWrites := 3, drained := true }

/-- A bucket with two non-empty encoders whose pooled iterator
reports an error. -/
def c6b : DbBufferBucket :=
  { opts := { blockSize := 7200, allocSize := 0, poolFailSet := [], iterFails := true
              flushAfterNoMetricPeriod := 600, maxWritesBeforeFlush := 100 }
    start := 0
    encoders :=
      [{ encoder := { start := 0, data := [⟨5, 1, 0, []⟩], failSet := [], closed := false }
         lastWriteAt := 5 },
       { encoder := { start := 0, data := [⟨3, 2, 0, []⟩], failSet := [], closed := false }
         lastWriteAt := 3 }]
    bootstrapped := [], lastReadUnixNanos := 0, lastWriteUnixNanos := 0
    undrainedWrites := 2, drained := false }

/-- A bucket holding exactly one non-empty bootstrapped block and one
empty encoder, hitting the single-bootstrapped-block fast path. -/
def c3bB : DbBufferBucket :=
  { opts := optsDefault, start := 0
    encoders := [{ encoder := { start := 0, data := [], failSet := [], closed := false }
                   lastWriteAt := 0 }]
    bootstrapped :=
      [{ start := 0, blockSize := 7200, seg := [⟨1, 1, 0, []⟩]
         retrieved := true, streamFails := false, closed := false }]
    lastReadUnixNanos := 0, lastWriteUnixNanos := 0
    undrainedWrites := 0, drained := false }

/-- A bucket like c5cex but whose recorded entries carry unit 1 and an
empty byte string. -/
def c9cex : DbBufferBucket :=
  { opts := optsDefault, start := 0
    encoders :=
      [{ encoder := { start := 0, data := [⟨5, 1, 1, []⟩], failSet := [], closed := false }
         lastWriteAt := 5 },
       { encoder := { start := 0, data := [⟨10, 7, 1, []⟩], failSet := [], closed := false }
         lastWriteAt := 10 }]
    bootstrapped := [], lastReadUnixNanos := 0, lastWriteUnixNanos := 0
    undrainedWrites := 0, drained := false }

/-- A single-encoder bucket whose tail 4 carries last value 9 with
unit 1. -/
def c9w : DbBufferBucket :=
  { opts := optsDefault, start := 0
    encoders :=
      [{ encoder := { start := 0, data := [⟨4, 9, 1, [2]⟩], failSet := [], closed := false }
         lastWriteAt := 4 }]
    bootstrapped := [], lastReadUnixNanos := 0, lastWriteUnixNanos := 0
    undrainedWrites := 1, drained := false }

/-- A drained bucket used to instantiate the bootstrap frame claim. -/
def c10b : DbBufferBucket := { fresh0 with drained := true }

/-- A non-empty bootstrapped block used to instantiate the bootstrap
frame claim. -/
def c10bl : DBBlock :=
  { start := 0, blockSize := 7200, seg := [⟨1, 4, 0, []⟩]
    retrieved := true, streamFails := false, closed := false }

/-! ### Helper lemmas -/

theorem length_filterMap_countP {α β : Type} (f : α → Option β) (l : List α) :
    (l.filterMap f).length = l.countP (fun a => (f a).isSome) := by
  induction l with
  | nil => rfl
  | cons a l ih =>
    cases hf : f a <;>
      simp [List.filterMap_cons, List.countP_cons, hf, ih]

theorem filterMap_as_filter_map {α β : Type} (f : α → Option β) (p : α → Bool) (g : α → β)
    (h : ∀ a, f a = if p a then some (g a) else none) (l : List α) :
    l.filterMap f = (l.filter p).map g := by
  induction l with
  | nil => rfl
  | cons a l ih =>
    cases hp : p a <;>
      simp [List.filterMap_cons, List.filter_cons, h a, hp, ih]

theorem bootReader_pointwise (bl : DBBlock) :
    (if bl.len = 0 then none
     else match bl.stream with
       | Except.ok s => if s.isNotEmpty then some s else none
       | Except.error _ => none) =
    (if !bl.streamFails && !bl.seg.isEmpty then
       some { segmentReader := some bl.seg, start := bl.start, blockSize := bl.blockSize }
     else (none : Option BlockReader)) := by
  rcases bl with ⟨st, bs, seg, r, sf, c⟩
  cases sf <;> cases seg <;>
    simp [DBBlock.len, DBBlock.stream, BlockReader.isNotEmpty]

theorem encReader_pointwise (start blockSize : Int) (e : InOrderEncoder) :
    (match e.encoder.stream with
     | some s =>
       some { segmentReader := some s, start := start, blockSize := blockSize }
     | none => none) =
    (if !e.encoder.data.isEmpty then
       some { segmentReader := some e.encoder.data, start := start, blockSize := blockSize }
     else (none : Option BlockReader)) := by
  rcases e with ⟨⟨es, ed, ef, ec⟩, lwa⟩
  cases ed <;> simp [Encoder.stream]

/-! ### Claim theorems -/

/-- C1: evaluation of the code at the failing input.  On a fresh
bucket, an in-order write is appended to the existing encoder (the
write succeeds and encodes one point) and an equal-timestamp
equal-value rewrite is a no-op; yet undrainedWrites remains 0 and
lastWriteUnixNanos remains 0, because the branch of write that
appends to an existing encoder returns without storing
lastWriteUnixNanos, incrementing undrainedWrites or clearing drained.
The claim (and the spec, step 4 and scenario D) requires
undrainedWrites = 1 and lastWriteUnixNanos at least 5 here. -/
theorem write_existing_encoder_skips_counters_c1 :
    (fresh0.write 5 3 7 0 []).err = none ∧
    ((fresh0.write 5 3 7 0 []).bucket.encoders.map (fun e => e.encoder.numEncoded)) = [1] ∧
    ((fresh0.write 5 3 7 0 []).bucket.write 6 3 7 0 []).err = none ∧
    ((fresh0.write 5 3 7 0 []).bucket.write 6 3 7 0 []).bucket =
      (fresh0.write 5 3 7 0 []).bucket ∧
    ((fresh0.write 5 3 7 0 []).bucket.write 6 3 7 0 []).bucket.undrainedWrites = 0 ∧
    ((fresh0.write 5 3 7 0 []).bucket.write 6 3 7 0 []).bucket.lastWriteUnixNanos = 0 := by
  decide

/-- C8: streams returns the readers in rank order, bootstrapped blocks
first and then the encoders in push order, keeping exactly the
bootstrapped blocks that are non-empty and whose stream opens (a
failed open is swallowed and the block skipped) and exactly the
encoders whose stream is present (non-empty data). -/
theorem streams_rank_order_c8 (b : DbBufferBucket) :
    b.streams =
      ((b.bootstrapped.filter (fun bl => !bl.streamFails && !bl.seg.isEmpty)).map
        (fun bl => { segmentReader := some bl.seg, start := bl.start, blockSize := bl.blockSize })) ++
      ((b.encoders.filter (fun e => !e.encoder.data.isEmpty)).map
        (fun e =>
          { segmentReader := some e.encoder.data, start := b.start, blockSize := b.opts.blockSize })) := by
  unfold DbBufferBucket.streams
  rw [filterMap_as_filter_map _ _ _ bootReader_pointwise,
    filterMap_as_filter_map _ _ _ (encReader_pointwise b.start b.opts.blockSize)]

/-- C10: bootstrap(block) only appends the block to the bootstrapped
list, leaving drained, undrainedWrites, lastWriteUnixNanos,
lastReadUnixNanos, start and the encoders list unchanged; a drained
bucket stays unreadable after bootstrapping a non-empty block even
though it is no longer empty. -/
theorem bootstrap_frame_c10 (b : DbBufferBucket) (bl : DBBlock) :
    ((b.bootstrap bl).drained = b.drained ∧
     (b.bootstrap bl).undrainedWrites = b.undrainedWrites ∧
     (b.bootstrap bl).lastWriteUnixNanos = b.lastWriteUnixNanos ∧
     (b.bootstrap bl).lastReadUnixNanos = b.lastReadUnixNanos ∧
     (b.bootstrap bl).start = b.start ∧
     (b.bootstrap bl).encoders = b.encoders ∧
     (b.bootstrap bl).bootstrapped = b.bootstrapped ++ [bl]) ∧
    (b.drained = true → 0 < bl.len →
      (b.bootstrap bl).canRead = false ∧ (b.bootstrap bl).empty = false) := by
  refine ⟨⟨rfl, rfl, rfl, rfl, rfl, rfl, rfl⟩, ?_⟩
  intro hd hlen
  have hne : (bl.len == 0) = false := by
    simp only [beq_eq_false_iff_ne]
    omega
  constructor
  · simp [DbBufferBucket.canRead, DbBufferBucket.bootstrap, hd, DbBufferBucket.empty, hne]
  · simp [DbBufferBucket.empty, DbBufferBucket.bootstrap, hne]

/-- C10 witness: the frame theorem applied at a concrete drained
bucket and a concrete non-empty block. -/
theorem bootstrap_frame_c10_witness :
    (c10b.bootstrap c10bl).canRead = false ∧ (c10b.bootstrap c10bl).empty = false :=
  (bootstrap_frame_c10 c10b c10bl).2 (by decide) (by decide)

/-! ### Lemmas about the write scan -/

theorem listGetConcatLength {α : Type} (l : List α) (a : α) :
    (l ++ [a]).get? l.length = some a := by
  induction l with
  | nil => rfl
  | cons x xs ih =>
    simp only [List.cons_append, List.length_cons, List.get?_cons_succ]
    exact ih

theorem listSetConcatLength {α : Type} (l : List α) (a b : α) :
    (l ++ [a]).set l.length b = l ++ [b] := by
  induction l with
  | nil => rfl
  | cons x xs ih =>
    simp only [List.cons_append, List.length_cons]
    show x :: (xs ++ [a]).set xs.length b = x :: (xs ++ [b])
    rw [ih]

theorem scanEncoders_exhausted (timestamp value : Int) :
    ∀ (l : List InOrderEncoder) (i : Nat),
      (∀ e ∈ l, timestamp < e.lastWriteAt) →
      scanEncoders l timestamp value i = ScanResult.exhausted := by
  intro l
  induction l with
  | nil => intro i h; rfl
  | cons e rest ih =>
    intro i h
    have he := h e (List.mem_cons_self e rest)
    have h1 : ¬ timestamp = e.lastWriteAt := by omega
    have h2 : ¬ e.lastWriteAt < timestamp := by omega
    simp only [scanEncoders, if_neg h1, if_neg h2]
    exact ih (i + 1) (fun x hx => h x (List.mem_cons_of_mem e hx))

theorem scanEncoders_noop (timestamp value : Int) :
    ∀ (l : List InOrderEncoder) (k i : Nat) (hk : k < l.length),
      (l.get ⟨k, hk⟩).lastWriteAt = timestamp →
      (∃ dp : Datapoint,
        (l.get ⟨k, hk⟩).encoder.lastEncoded = Except.ok dp ∧ dp.value = value) →
      (∀ j (hj : j < k),
        timestamp ≤ (l.get ⟨j, lt_trans hj hk⟩).lastWriteAt ∧
        ((l.get ⟨j, lt_trans hj hk⟩).lastWriteAt = timestamp →
          ∃ dp : Datapoint,
            (l.get ⟨j, lt_trans hj hk⟩).encoder.lastEncoded = Except.ok dp ∧
            dp.value ≠ value)) →
      scanEncoders l timestamp value i = ScanResult.noop := by
  intro l
  induction l with
  | nil => intro k i hk; exact absurd hk (Nat.not_lt_zero k)
  | cons e rest ih =>
    intro k i hk hts hval hprev
    cases k with
    | zero =>
      obtain ⟨dp, hdp, hdv⟩ := hval
      have hts0 : e.lastWriteAt = timestamp := hts
      have hdp0 : e.encoder.lastEncoded = Except.ok dp := hdp
      simp only [scanEncoders, if_pos hts0.symm, hdp0, if_pos hdv]
    | succ k =>
      have hts1 : (rest.get ⟨k, Nat.lt_of_succ_lt_succ hk⟩).lastWriteAt = timestamp := hts
      have hval1 : ∃ dp : Datapoint,
          (rest.get ⟨k, Nat.lt_of_succ_lt_succ hk⟩).encoder.lastEncoded = Except.ok dp ∧
          dp.value = value := hval
      have h0 := hprev 0 (Nat.succ_pos k)
      have h0a : timestamp ≤ e.lastWriteAt := h0.1
      have h0b : e.lastWriteAt = timestamp →
          ∃ dp : Datapoint, e.encoder.lastEncoded = Except.ok dp ∧ dp.value ≠ value := h0.2
      have hrest : ∀ j (hj : j < k),
          timestamp ≤ (rest.get ⟨j, lt_trans hj (Nat.lt_of_succ_lt_succ hk)⟩).lastWriteAt ∧
          ((rest.get ⟨j, lt_trans hj (Nat.lt_of_succ_lt_succ hk)⟩).lastWriteAt = timestamp →
            ∃ dp : Datapoint,
              (rest.get ⟨j, lt_trans hj (Nat.lt_of_succ_lt_succ hk)⟩).encoder.lastEncoded =
                Except.ok dp ∧ dp.value ≠ value) :=
        fun j hj => hprev (j + 1) (Nat.succ_lt_succ hj)
      by_cases he : e.lastWriteAt = timestamp
      · obtain ⟨dp, hdp, hdv⟩ := h0b he
        simp only [scanEncoders, if_pos he.symm, hdp, if_neg hdv]
        exact ih k (i + 1) (Nat.lt_of_succ_lt_succ hk) hts1 hval1 hrest
      · have h1 : ¬ timestamp = e.lastWriteAt := fun h => he h.symm
        have h2 : ¬ e.lastWriteAt < timestamp := by omega
        simp only [scanEncoders, if_neg h1, if_neg h2]
        exact ih k (i + 1) (Nat.lt_of_succ_lt_succ hk) hts1 hval1 hrest

/-- The behavior of write when the scan exhausts all encoders and the
pooled encoder accepts the datapoint: a fresh encoder reset to the
truncated timestamp is pushed onto the end of the list with the
datapoint encoded in it, and the counters are updated. -/
theorem write_exhausted_ok (b : DbBufferBucket) (now timestamp value : Int)
    (unit : Nat) (ann : List Nat)
    (hscan : scanEncoders b.encoders timestamp value 0 = ScanResult.exhausted)
    (hok : b.opts.poolFailSet.contains (⟨timestamp, value⟩ : Datapoint) = false) :
    b.write now timestamp value unit ann =
      ⟨{ b with
          encoders := b.encoders ++
            [{ encoder := { start := timeTruncate timestamp b.opts.blockSize
                            data := [⟨timestamp, value, unit, ann⟩]
                            failSet := b.opts.poolFailSet, closed := false }
               lastWriteAt := timestamp }]
          lastWriteUnixNanos := now
          undrainedWrites := b.undrainedWrites + 1
          drained := false }, [], none⟩ := by
  unfold DbBufferBucket.write
  rw [hscan]
  simp only [DbBufferBucket.writeToEncoderIndex, Options.encoderPoolGet, Encoder.reset,
    Encoder.encode, List.length_append, List.length_cons, List.length_nil, Nat.zero_add,
    Nat.add_sub_cancel, listGetConcatLength, hok, Bool.false_eq_true, if_false,
    listSetConcatLength, List.nil_append]

/-- The behavior of write when the scan exhausts all encoders and the
pooled encoder refuses the datapoint: the fresh encoder is closed and
removed, the bucket is restored, and the error is returned. -/
theorem write_exhausted_err (b : DbBufferBucket) (now timestamp value : Int)
    (unit : Nat) (ann : List Nat)
    (hscan : scanEncoders b.encoders timestamp value 0 = ScanResult.exhausted)
    (hfail : b.opts.poolFailSet.contains (⟨timestamp, value⟩ : Datapoint) = true) :
    b.write now timestamp value unit ann =
      ⟨b, [{ start := timeTruncate timestamp b.opts.blockSize, data := []
             failSet := b.opts.poolFailSet, closed := true }], some "encode error"⟩ := by
  unfold DbBufferBucket.write
  rw [hscan]
  simp only [DbBufferBucket.writeToEncoderIndex, Options.encoderPoolGet, Encoder.reset,
    Encoder.encode, Encoder.close, List.length_append, List.length_cons, List.length_nil,
    Nat.zero_add, Nat.add_sub_cancel, listGetConcatLength, hfail, if_true,
    List.take_left]

/-- C4: a write whose timestamp differs from every encoder tail and is
not after any of them (older than every stream tail) allocates a new
encoder reset to the timestamp truncated down to the block size,
pushes it onto the end of encoders and appends the datapoint there. -/
theorem write_out_of_order_new_encoder_c4 (b : DbBufferBucket) (now timestamp value : Int)
    (unit : Nat) (ann : List Nat)
    (hall : ∀ e ∈ b.encoders, timestamp < e.lastWriteAt)
    (hok : b.opts.poolFailSet.contains (⟨timestamp, value⟩ : Datapoint) = false) :
    (b.write now timestamp value unit ann).err = none ∧
    (b.write now timestamp value unit ann).bucket.encoders.length = b.encoders.length + 1 ∧
    (b.write now timestamp value unit ann).bucket.encoders.getLast? =
      some { encoder := { start := timeTruncate timestamp b.opts.blockSize
                          data := [⟨timestamp, value, unit, ann⟩]
                          failSet := b.opts.poolFailSet, closed := false }
             lastWriteAt := timestamp } := by
  rw [write_exhausted_ok b now timestamp value unit ann
    (scanEncoders_exhausted timestamp value b.encoders 0 hall) hok]
  refine ⟨rfl, by simp, by simp⟩

/-- C4 witness: writing an older timestamp after an in-order write
goes through the new-encoder path, leaving two encoders. -/
theorem write_out_of_order_new_encoder_c4_witness :
    ((c4b1.write 11 3 2 0 []).err = none ∧
     (c4b1.write 11 3 2 0 []).bucket.encoders.length = c4b1.encoders.length + 1 ∧
     (c4b1.write 11 3 2 0 []).bucket.encoders.getLast? =
       some { encoder := { start := timeTruncate 3 c4b1.opts.blockSize
                           data := [⟨3, 2, 0, []⟩]
                           failSet := c4b1.opts.poolFailSet, closed := false }
              lastWriteAt := 3 }) ∧
    c4b1.encoders.length = 1 :=
  ⟨write_out_of_order_new_encoder_c4 c4b1 11 3 2 0 [] (by decide) (by decide), by decide⟩

/-- C7: when the write goes through the new-encoder path and the
append into the fresh encoder fails, the fresh encoder is closed and
removed (the list is restored), the error is returned, and the bucket
is exactly as before: lastWriteUnixNanos, undrainedWrites and drained
are untouched. -/
theorem write_new_encoder_error_c7 (b : DbBufferBucket) (now timestamp value : Int)
    (unit : Nat) (ann : List Nat)
    (hall : ∀ e ∈ b.encoders, timestamp < e.lastWriteAt)
    (hfail : b.opts.poolFailSet.contains (⟨timestamp, value⟩ : Datapoint) = true) :
    b.write now timestamp value unit ann =
      ⟨b, [{ start := timeTruncate timestamp b.opts.blockSize, data := []
             failSet := b.opts.poolFailSet, closed := true }], some "encode error"⟩ :=
  write_exhausted_err b now timestamp value unit ann
    (scanEncoders_exhausted timestamp value b.encoders 0 hall) hfail

/-- C7 witness: the error path evaluated on a concrete bucket whose
pool refuses the written datapoint. -/
theorem write_new_encoder_error_c7_witness :
    c7b.write 20 3 9 0 [] =
      ⟨c7b, [{ start := timeTruncate 3 c7b.opts.blockSize, data := []
               failSet := c7b.opts.poolFailSet, closed := true }], some "encode error"⟩ :=
  write_new_encoder_error_c7 c7b 20 3 9 0 [] (by decide) (by decide)

/-- C5 counterexample: this bucket contains an encoder (index 1) whose
lastWriteAt equals the written timestamp 10 and whose last encoded
value equals the written value 7, yet write(now, 10, 7) is not a
no-op: it returns OK but appends the datapoint to the encoder at
index 0, whose point count grows from 1 to 2. -/
theorem write_noop_c5_counterexample :
    c5cex.encoders.get? 1 =
      some { encoder := { start := 0, data := [⟨10, 7, 0, []⟩], failSet := [], closed := false }
             lastWriteAt := 10 } ∧
    (c5cex.write 20 10 7 0 []).err = none ∧
    (c5cex.encoders.map (fun e => e.encoder.numEncoded)) = [1, 1] ∧
    ((c5cex.write 20 10 7 0 []).bucket.encoders.map (fun e => e.encoder.numEncoded)) = [2, 1] := by
  decide

/-- C5 as amended: if some encoder at index k has lastWriteAt equal to
the written timestamp and last encoded value equal to the written
value, and every encoder before k in scan order has a tail at least
the timestamp, holding a different last value whenever the tails are
equal, then write is a no-op success: it returns OK, closes nothing,
appends nothing, creates no encoder, leaves undrainedWrites unchanged
and does not clear drained (the bucket is returned untouched). -/
theorem write_noop_scan_c5 (b : DbBufferBucket) (now timestamp value : Int)
    (unit : Nat) (ann : List Nat) (k : Nat) (hk : k < b.encoders.length)
    (hts : (b.encoders.get ⟨k, hk⟩).lastWriteAt = timestamp)
    (hval : ∃ dp : Datapoint,
      (b.encoders.get ⟨k, hk⟩).encoder.lastEncoded = Except.ok dp ∧ dp.value = value)
    (hprev : ∀ j (hj : j < k),
      timestamp ≤ (b.encoders.get ⟨j, lt_trans hj hk⟩).lastWriteAt ∧
      ((b.encoders.get ⟨j, lt_trans hj hk⟩).lastWriteAt = timestamp →
        ∃ dp : Datapoint,
          (b.encoders.get ⟨j, lt_trans hj hk⟩).encoder.lastEncoded = Except.ok dp ∧
          dp.value ≠ value)) :
    b.write now timestamp value unit ann = ⟨b, [], none⟩ := by
  have hscan := scanEncoders_noop timestamp value b.encoders k 0 hk hts hval hprev
  unfold DbBufferBucket.write
  rw [hscan]

/-- C5 witness: the amended no-op theorem applied at a concrete
bucket. -/
theorem write_noop_scan_c5_witness :
    c5w.write 20 10 7 0 [] = ⟨c5w, [], none⟩ :=
  write_noop_scan_c5 c5w 20 10 7 0 [] 0 (by decide) rfl
    ⟨⟨10, 7⟩, rfl, rfl⟩ (fun j hj => absurd hj (Nat.not_lt_zero j))

/-! ### Lemmas about merge -/

theorem bootStreams_length (b : DbBufferBucket) :
    (bootStreamsOf b).length =
      b.bootstrapped.countP (fun bl => !bl.streamFails && !bl.seg.isEmpty) := by
  unfold bootStreamsOf
  rw [length_filterMap_countP]
  have h : (fun bl : DBBlock =>
      (match bl.stream with
       | Except.ok r => r.segmentReader
       | Except.error _ => none).isSome) =
      (fun bl : DBBlock => !bl.streamFails && !bl.seg.isEmpty) := by
    funext bl
    rcases bl with ⟨st, bs, seg, r, sf, c⟩
    cases sf <;> cases seg <;> simp [DBBlock.stream]
  rw [h]

theorem encStreams_length (b : DbBufferBucket) :
    (encStreamsOf b).length = b.encoders.countP (fun e => !e.encoder.data.isEmpty) := by
  unfold encStreamsOf
  rw [length_filterMap_countP]
  have h : (fun e : InOrderEncoder => (e.encoder.stream).isSome) =
      (fun e : InOrderEncoder => !e.encoder.data.isEmpty) := by
    funext e
    rcases e with ⟨⟨es, ed, ef, ec⟩, lwa⟩
    cases ed <;> simp [Encoder.stream]
  rw [h]

/-- C2: a merge on a bucket that does not need merging returns merges
0 and leaves the bucket unchanged; a merge on a bucket that needs
merging and hits no encode or iterator error leaves exactly one
encoder (the fresh merged one), an empty bootstrapped list, and
returns as merges the number of streams fed into the iterator: the
bootstrapped blocks that are non-empty with an opening stream plus the
encoders with non-empty data. -/
theorem merge_c2 (b : DbBufferBucket) :
    (b.needsMerge = false →
      b.merge.bucket = b ∧ b.merge.merges = 0 ∧ b.merge.err = none) ∧
    (b.needsMerge = true → b.merge.err = none →
      b.merge.bucket.encoders.length = 1 ∧
      b.merge.bucket.bootstrapped = [] ∧
      b.merge.merges =
        b.bootstrapped.countP (fun bl => !bl.streamFails && !bl.seg.isEmpty) +
        b.encoders.countP (fun e => !e.encoder.data.isEmpty)) := by
  constructor
  · intro hn
    simp [DbBufferBucket.merge, hn]
  · intro hn herr
    by_cases hit : b.opts.iterFails
    · simp [DbBufferBucket.merge, hn, hit] at herr
    · rcases hdrain : drainLoop ((b.opts.encoderPoolGet).reset b.start b.opts.allocSize) 0
          (multiReaderMerge (bootStreamsOf b ++ encStreamsOf b)) with msg | pr
      · simp [DbBufferBucket.merge, hn, hit, hdrain] at herr
      · obtain ⟨enc1, lwa⟩ := pr
        refine ⟨?_, ?_, ?_⟩ <;>
          simp [DbBufferBucket.merge, hn, hit, hdrain, DbBufferBucket.resetEncoders,
            DbBufferBucket.resetBootstrapped, bootStreams_length, encStreams_length]

/-- C2 witness: the merge theorem applied to a single-encoder bucket
(no merge needed) and to a two-encoder bucket (real merge, merges 2). -/
theorem merge_c2_witness :
    (c4b1.merge.bucket = c4b1 ∧ c4b1.merge.merges = 0 ∧ c4b1.merge.err = none) ∧
    (c2m.merge.bucket.encoders.length = 1 ∧
     c2m.merge.bucket.bootstrapped = [] ∧
     c2m.merge.merges =
       c2m.bootstrapped.countP (fun bl => !bl.streamFails && !bl.seg.isEmpty) +
       c2m.encoders.countP (fun e => !e.encoder.data.isEmpty)) :=
  ⟨(merge_c2 c4b1).1 (by decide), (merge_c2 c2m).2 (by decide) (by decide)⟩

/-- C6: a merge that fails (encode error or iterator error) returns
the error with merges 0 and leaves the encoders list and the
bootstrapped list unchanged. -/
theorem merge_error_frame_c6 (b : DbBufferBucket) :
    b.merge.err.isSome = true →
      b.merge.bucket.encoders = b.encoders ∧
      b.merge.bucket.bootstrapped = b.bootstrapped ∧
      b.merge.merges = 0 := by
  intro herr
  by_cases hn : b.needsMerge
  · by_cases hit : b.opts.iterFails
    · simp [DbBufferBucket.merge, hn, hit]
    · rcases hdrain : drainLoop ((b.opts.encoderPoolGet).reset b.start b.opts.allocSize) 0
          (multiReaderMerge (bootStreamsOf b ++ encStreamsOf b)) with msg | pr
      · simp [DbBufferBucket.merge, hn, hit, hdrain]
      · obtain ⟨enc1, lwa⟩ := pr
        simp [DbBufferBucket.merge, hn, hit, hdrain] at herr
  · simp [DbBufferBucket.merge, hn] at herr

/-- C6 witness: the failing merge leaves a concrete two-encoder bucket
untouched. -/
theorem merge_error_frame_c6_witness :
    c6b.merge.bucket.encoders = c6b.encoders ∧
    c6b.merge.bucket.bootstrapped = c6b.bootstrapped ∧
    c6b.merge.merges = 0 :=
  merge_error_frame_c6 c6b (by decide)

/-- C3 counterexample: the fast path for a single non-empty encoder
(no bootstrapped blocks) succeeds while closing no encoder at all:
the previously held encoder is discarded into the returned block, not
closed, so the claim that all previously held encoders are closed
fails on this input. -/
theorem discardMerged_c3_counterexample :
    c4b1.discardMerged.err = none ∧
    c4b1.encoders.length = 1 ∧
    (c4b1.encoders.map (fun e => e.encoder.numEncoded)) = [1] ∧
    c4b1.discardMerged.closedEncoders = [] := by
  decide

/-- C3 as amended: after a successful discardMerged the bucket is
empty (encoders cleared, bootstrapped cleared, empty() true).  On the
single-bootstrapped-block fast path the held encoders are all closed,
the single bootstrapped block is returned without being closed, and
merges is 0.  On the single-encoder fast path no encoder is closed
(the buffer of the sole encoder is discarded into the returned block
instead) and merges is 0. -/
theorem discardMerged_c3 (b : DbBufferBucket) (hok : b.discardMerged.err = none) :
    (b.discardMerged.bucket.encoders = [] ∧
     b.discardMerged.bucket.bootstrapped = [] ∧
     b.discardMerged.bucket.empty = true) ∧
    (b.hasJustSingleBootstrappedBlock = true →
      ∃ bl, b.bootstrapped = [bl] ∧
        b.discardMerged.block = some bl ∧
        b.discardMerged.closedBlocks = [] ∧
        b.discardMerged.closedEncoders = b.encoders.map (fun e => e.encoder.close) ∧
        b.discardMerged.merges = 0) ∧
    (b.hasJustSingleEncoder = true →
      b.discardMerged.closedEncoders = [] ∧ b.discardMerged.merges = 0) := by
  by_cases hA : b.hasJustSingleEncoder
  · have hA1 := hA
    unfold DbBufferBucket.hasJustSingleEncoder at hA1
    rw [Bool.and_eq_true, beq_iff_eq, beq_iff_eq] at hA1
    obtain ⟨e, henc⟩ := List.length_eq_one.mp hA1.1
    have hboot : b.bootstrapped = [] := List.length_eq_zero.mp hA1.2
    refine ⟨?_, ?_, ?_⟩
    · simp [DbBufferBucket.discardMerged, hA, henc, DbBufferBucket.resetBootstrapped,
        DbBufferBucket.empty]
    · intro hB
      unfold DbBufferBucket.hasJustSingleBootstrappedBlock at hB
      rw [Bool.and_eq_true, beq_iff_eq] at hB
      rw [hboot] at hB
      simp at hB
    · intro _
      constructor <;> simp [DbBufferBucket.discardMerged, hA, henc]
  · by_cases hB : b.hasJustSingleBootstrappedBlock
    · have hB1 := hB
      unfold DbBufferBucket.hasJustSingleBootstrappedBlock at hB1
      rw [Bool.and_eq_true, beq_iff_eq] at hB1
      obtain ⟨bl, hboot⟩ := List.length_eq_one.mp hB1.2
      refine ⟨?_, ?_, ?_⟩
      · simp [DbBufferBucket.discardMerged, hA, hB, hboot, DbBufferBucket.resetEncoders,
          DbBufferBucket.empty]
      · intro _
        refine ⟨bl, hboot, ?_, ?_, ?_, ?_⟩ <;>
          simp [DbBufferBucket.discardMerged, hA, hB, hboot, DbBufferBucket.resetEncoders]
      · intro hAtrue
        exact absurd hAtrue hA
    · rcases herr : b.merge.err with _ | msg
      · rcases henc : b.merge.bucket.encoders with _ | ⟨mr, rest⟩
        · exfalso
          simp [DbBufferBucket.discardMerged, hA, hB, herr, henc] at hok
        · refine ⟨?_, ?_, ?_⟩
          · simp [DbBufferBucket.discardMerged, hA, hB, herr, henc,
              DbBufferBucket.resetBootstrapped, DbBufferBucket.empty]
          · intro hBtrue
            exact absurd hBtrue hB
          · intro hAtrue
            exact absurd hAtrue hA
      · exfalso
        simp [DbBufferBucket.discardMerged, hA, hB, herr] at hok

/-- C3 witness: the amended theorem applied on the
single-bootstrapped-block fast path, with its hypotheses discharged at
a concrete bucket. -/
theorem discardMerged_c3_witness :
    ((∃ bl, c3bB.bootstrapped = [bl] ∧
      c3bB.discardMerged.block = some bl ∧
      c3bB.discardMerged.closedBlocks = [] ∧
      c3bB.discardMerged.closedEncoders = c3bB.encoders.map (fun e => e.encoder.close) ∧
      c3bB.discardMerged.merges = 0) ∧
     c3bB.discardMerged.bucket.empty = true) ∧
    (c4b1.discardMerged.closedEncoders = [] ∧ c4b1.discardMerged.merges = 0) :=
  ⟨⟨(discardMerged_c3 c3bB (by decide)).2.1 (by decide),
    (discardMerged_c3 c3bB (by decide)).1.2.2⟩,
   (discardMerged_c3 c4b1 (by decide)).2.2 (by decide)⟩

/-- C9 counterexample: this bucket contains an encoder (index 1) with
lastWriteAt 10 and last encoded value 7, yet write(now, 10, 7) with a
differing unit 2 and byte string [9] is not a no-op that drops them:
the scan selects the encoder at index 0 first and records the
datapoint there together with the new unit and byte string. -/
theorem write_noop_c9_counterexample :
    c9cex.encoders.get? 1 =
      some { encoder := { start := 0, data := [⟨10, 7, 1, []⟩], failSet := [], closed := false }
             lastWriteAt := 10 } ∧
    (c9cex.write 20 10 7 2 [9]).err = none ∧
    (c9cex.write 20 10 7 2 [9]).bucket.encoders.get? 0 =
      some { encoder := { start := 0, data := [⟨5, 1, 1, []⟩, ⟨10, 7, 2, [9]⟩]
                          failSet := [], closed := false }
             lastWriteAt := 10 } := by
  decide

/-- C9 as amended: under the scan-order conditions of the no-op path
(an encoder at index k with tail equal to the timestamp and last value
equal to the written value, every earlier encoder having a tail at
least the timestamp and a different last value when tails are equal),
write is a no-op that ignores the unit and the byte string entirely:
the bucket is returned untouched and the outcome does not depend on
them. -/
theorem write_noop_ignores_unit_ann_c9 (b : DbBufferBucket) (now timestamp value : Int)
    (k : Nat) (hk : k < b.encoders.length)
    (hts : (b.encoders.get ⟨k, hk⟩).lastWriteAt = timestamp)
    (hval : ∃ dp : Datapoint,
      (b.encoders.get ⟨k, hk⟩).encoder.lastEncoded = Except.ok dp ∧ dp.value = value)
    (hprev : ∀ j (hj : j < k),
      timestamp ≤ (b.encoders.get ⟨j, lt_trans hj hk⟩).lastWriteAt ∧
      ((b.encoders.get ⟨j, lt_trans hj hk⟩).lastWriteAt = timestamp →
        ∃ dp : Datapoint,
          (b.encoders.get ⟨j, lt_trans hj hk⟩).encoder.lastEncoded = Except.ok dp ∧
          dp.value ≠ value))
    (u1 u2 : Nat) (a1 a2 : List Nat) :
    b.write now timestamp value u1 a1 = ⟨b, [], none⟩ ∧
    b.write now timestamp value u1 a1 = b.write now timestamp value u2 a2 := by
  have hscan := scanEncoders_noop timestamp value b.encoders k 0 hk hts hval hprev
  have h1 : b.write now timestamp value u1 a1 = ⟨b, [], none⟩ := by
    unfold DbBufferBucket.write
    rw [hscan]
  have h2 : b.write now timestamp value u2 a2 = ⟨b, [], none⟩ := by
    unfold DbBufferBucket.write
    rw [hscan]
  exact ⟨h1, h1.trans h2.symm⟩

/-- C9 witness: the amended no-op theorem applied at a concrete
bucket with two different unit and byte-string pairs. -/
theorem write_noop_ignores_unit_ann_c9_witness :
    c9w.write 30 4 9 5 [7] = ⟨c9w, [], none⟩ ∧
    c9w.write 30 4 9 5 [7] = c9w.write 30 4 9 6 [8] :=
  write_noop_ignores_unit_ann_c9 c9w 30 4 9 0 (by decide) rfl
    ⟨⟨4, 9⟩, rfl, rfl⟩ (fun j hj => absurd hj (Nat.not_lt_zero j)) 5 6 [7] [8]
